import Mathlib

/-!
Verification of the variant-selection and output pipeline of
`prody/apps/evol_apps/evol_coevol.py` (the `evol_coevol` function).

The numerical collaborators (`parseMSA`, `buildMutinfoMatrix`,
`calcShannonEntropy`, `applyMutinfoNorm`, `applyMutinfoCorr`) are external
pure functions; they are modelled as opaque symbolic constructors.  The side
effects of the pipeline (text writes via `writeArray`, figure writes via
`figure.savefig`, warnings via `LOGGER.warn`, the mutation of
`prody.SETTINGS` at line 176, and the lazily computed entropy cache) are
modelled as an explicit state record threaded through the task loop.
A failure of the figure render/save step (which the Python code does not
catch: only `ImportError` of matplotlib is caught) is modelled with
`Except`, carrying the state reached when the uncaught exception aborts
the run.
-/

namespace EvolCoevol

/-- Shannon entropy value, `calcShannonEntropy(msa, **kwargs)`; the relevant
keyword arguments that reach the collaborator are the `ambiguity` and
`omitgaps` flags. -/
inductive Entropy where
| shannon (ambiguity omitgaps : Bool)
deriving DecidableEq

/-- Symbolic matrices: the base mutual information matrix
(`buildMutinfoMatrix(msa, **kwargs)`), the jointly normalized matrix
(`buildMutinfoMatrix(msa, norm=True, **kwargs)`), a normalized matrix
(`applyMutinfoNorm(mutinfo, entropy, norm=which)`) and a corrected matrix
(`applyMutinfoCorr(mutinfo, which)`). -/
inductive Matrix where
| mutinfo (ambiguity omitgaps : Bool)
| mutinfoJoint (ambiguity omitgaps : Bool)
| normed (base : Matrix) (entropy : Entropy) (which : String)
| corrected (base : Matrix) (which : String)
deriving DecidableEq

/-- The keyword arguments of `evol_coevol` that the pipeline reads.
`pfx?` models `kwargs.get('prefix')` (None when the option is absent);
`normalization` and `correction` model the repeatable `-m` / `-c` options
(argparse `append` yields None when unused); `cmin` / `cmax` are the figure
color-limit options, accepted but never read by the function body (the
lines reading them are commented out in the source). -/
structure Kwargs where
  pfx? : Option String := none
  normalization : Option (List String) := none
  correction : Option (List String) := none
  ambiguity : Bool := true
  omitgaps : Bool := true
  numformat : String := "%12g"
  figcoevol : Bool := false
  cmin : Option Int := none
  cmax : Option Int := none
  figwidth : Nat := 8
  figheight : Nat := 6
  figargs : List String := []
  figformat : String := "pdf"
  figdpi : Nat := 300
deriving DecidableEq

/-- The environment of a run: whether `import matplotlib.pyplot` succeeds,
and whether the render/save of the figure at a given path succeeds (the
Python code does not catch failures of this step). -/
structure Env where
  backendAvailable : Bool
  renderOk : String → Bool

/-- A saved figure: `figure.savefig(prefix + suffix + '.' + format,
format=format, dpi=...)` after `plt.figure(figsize=(width, height))` and
`showMutinfoMatrix(matrix, *figargs, msa=msa)`. -/
structure FigArtifact where
  path : String
  matrix : Matrix
  width : Nat
  height : Nat
  figargs : List String
  fmt : String
  dpi : Nat
deriving DecidableEq

/-- Observable state of a run: the entropy cache (`entropy = None` before
first use), how many times `calcShannonEntropy` was called, the sequence of
`writeArray` calls as (path, matrix, format) triples, the saved figures,
the number of `LOGGER.warn` calls, and the value of
`prody.SETTINGS['auto_show']` (None when never assigned). -/
structure St where
  entropy : Option Entropy
  entropyCalls : Nat
  textWrites : List (String × Matrix × String)
  figWrites : List FigArtifact
  warnings : Nat
  autoShow : Option Bool
deriving DecidableEq

/-- Index of the last occurrence of `c` in `l`, Python `str.rfind`. -/
def lastIndexOf (l : List Char) (c : Char) : Option Nat :=
  match l with
  | [] => none
  | a :: rest =>
    match lastIndexOf rest c with
    | some i => some (i + 1)
    | none => if a = c then some 0 else none

/-- Python `posixpath.splitext` on a list of characters: split off the
extension at the last dot that comes after the last path separator,
provided at least one non-dot character precedes it in the basename
(so leading dots, as in `.bashrc`, never start an extension). -/
def splitextList (p : List Char) : List Char × List Char :=
  let sepIndex : Int := match lastIndexOf p '/' with | some i => (i : Int) | none => -1
  let dotIndex : Int := match lastIndexOf p '.' with | some i => (i : Int) | none => -1
  if sepIndex < dotIndex then
    let d := dotIndex.toNat
    let f := (sepIndex + 1).toNat
    if (List.range' f (d - f)).any (fun j => p.get? j ≠ some '.') then
      (p.take d, p.drop d)
    else (p, [])
  else (p, [])

/-- Python `os.path.splitext` on strings. -/
def splitext (s : String) : String × String :=
  let q := splitextList s.toList
  (String.mk q.1, String.mk q.2)

/-- Python `str.lower`, character by character (the extensions compared
here are ASCII). -/
def strLower (s : String) : String := String.mk (s.toList.map Char.toLower)

/-- Lines 120-124: default prefix when no `--prefix` was given: strip the
extension; if it was `.gz` (case-insensitively) strip one more extension;
append `_mutinfo`. -/
def defaultPfx (msa : String) : String :=
  (if strLower ((splitext msa).2) = ".gz" then (splitext (splitext msa).1).1
   else (splitext msa).1) ++ "_mutinfo"

/-- The output filename stem used by the run (line 119: user prefix when
given, otherwise the derived default). -/
def pfxOf (msa : String) (kw : Kwargs) : String :=
  match kw.pfx? with
  | some p => p
  | none => defaultPfx msa

/-- A task as built by lines 131-142: `(None, None)` for the base matrix,
`('norm', which)` or `('corr', which)` otherwise. -/
abbrev Task := Option String × Option String

/-- Lines 134-139: normalization tasks.  If `'joint' in norm`, a
`('norm', 'joint')` task is appended first; then every element of the list
in order, skipping the literal `'join'`, appends a `('norm', which)` task
(including `'joint'` again). -/
def normTasks : Option (List String) → List Task
  | none => []
  | some ns =>
    (if "joint" ∈ ns then [(some "norm", some "joint")] else []) ++
      (ns.filter (fun w => w ≠ "join")).map (fun w => (some "norm", some w))

/-- Lines 140-142: one `('corr', which)` task per correction, in order. -/
def corrTasks : Option (List String) → List Task
  | none => []
  | some cs => cs.map (fun w => (some "corr", some w))

/-- Lines 131-142: the full task list, starting with the base task. -/
def planTasks (norm corr : Option (List String)) : List Task :=
  (none, none) :: (normTasks norm ++ corrTasks corr)

/-- The filename suffix each task produces (lines 148, 152, 158, 162). -/
def suffixOf (t : Task) : String :=
  if t.1 = none then ""
  else if t.2 = some "joint" then "_norm_joint"
  else if t.1 = some "norm" then "_norm_" ++ t.2.getD ""
  else "_corr_" ++ t.2.getD ""

/-- Whether a task takes the entropy-using branch of the dispatch (lines
153-157): not the base task, not variant `'joint'`, and kind `'norm'`. -/
def needsEntropy (t : Task) : Bool :=
  if t.1 = none then false
  else if t.2 = some "joint" then false
  else if t.1 = some "norm" then true
  else false

/-- Lines 146-162: select the matrix and suffix for a task, computing and
caching the Shannon entropy when the `'norm'` branch finds the cache empty. -/
def dispatch (kw : Kwargs) (st : St) (t : Task) : Matrix × String × St :=
  if t.1 = none then
    (Matrix.mutinfo kw.ambiguity kw.omitgaps, "", st)
  else if t.2 = some "joint" then
    (Matrix.mutinfoJoint kw.ambiguity kw.omitgaps, "_norm_joint", st)
  else if t.1 = some "norm" then
    match st.entropy with
    | some e =>
      (Matrix.normed (Matrix.mutinfo kw.ambiguity kw.omitgaps) e (t.2.getD ""),
       "_norm_" ++ t.2.getD "", st)
    | none =>
      (Matrix.normed (Matrix.mutinfo kw.ambiguity kw.omitgaps)
         (Entropy.shannon kw.ambiguity kw.omitgaps) (t.2.getD ""),
       "_norm_" ++ t.2.getD "",
       { st with entropy := some (Entropy.shannon kw.ambiguity kw.omitgaps),
                 entropyCalls := st.entropyCalls + 1 })
  else
    (Matrix.corrected (Matrix.mutinfo kw.ambiguity kw.omitgaps) (t.2.getD ""),
     "_corr_" ++ t.2.getD "", st)

/-- One iteration of the loop at lines 145-186: dispatch, write the text
artifact, then, when figure output is requested, either warn (the
backend cannot be loaded), or set `auto_show`, render and save the
figure; a failure
of the render/save step is not caught and aborts the run. -/
def doTask (kw : Kwargs) (pfx : String) (env : Env) (st : St) (t : Task) :
    Except St St :=
  let d := dispatch kw st t
  let st2 : St :=
    { d.2.2 with textWrites :=
        d.2.2.textWrites ++ [(pfx ++ d.2.1 ++ ".txt", d.1, kw.numformat)] }
  if kw.figcoevol then
    if env.backendAvailable then
      let st3 : St := { st2 with autoShow := some false }
      let figPath := pfx ++ d.2.1 ++ "." ++ kw.figformat
      if env.renderOk figPath then
        Except.ok { st3 with figWrites := st3.figWrites ++
          [{ path := figPath, matrix := d.1, width := kw.figwidth,
             height := kw.figheight, figargs := kw.figargs,
             fmt := kw.figformat, dpi := kw.figdpi }] }
      else
        Except.error st3
    else
      Except.ok { st2 with warnings := st2.warnings + 1 }
  else
    Except.ok st2

/-- The loop over the task list (line 145). -/
def runTasks (kw : Kwargs) (pfx : String) (env : Env) (st : St)
    (ts : List Task) : Except St St :=
  ts.foldlM (doTask kw pfx env) st

/-- Initial state: lines 126-129 have parsed the alignment, built the base
matrix and written it once to `prefix + '.txt'` before the task loop; the
entropy cache is `None`; `autoShow0` is the ambient value of the global
`prody.SETTINGS['auto_show']`. -/
def initSt (msa : String) (kw : Kwargs) (autoShow0 : Option Bool) : St :=
  { entropy := none, entropyCalls := 0,
    textWrites := [(pfxOf msa kw ++ ".txt",
                    Matrix.mutinfo kw.ambiguity kw.omitgaps, kw.numformat)],
    figWrites := [], warnings := 0, autoShow := autoShow0 }

/-- The whole of `evol_coevol` (lines 111-186). -/
def evol_coevol (msa : String) (kw : Kwargs) (env : Env)
    (autoShow0 : Option Bool) : Except St St :=
  runTasks kw (pfxOf msa kw) env (initSt msa kw autoShow0)
    (planTasks kw.normalization kw.correction)

/-- Final state of a run, also when it was aborted by an uncaught
exception. -/
def resultSt : Except St St → St
  | Except.ok s => s
  | Except.error s => s

theorem ok_bind {α β : Type} (a : α) (f : α → Except St β) :
    (Except.ok a : Except St α) >>= f = f a := rfl

theorem error_bind {α β : Type} (e : St) (f : α → Except St β) :
    (Except.error e : Except St α) >>= f = Except.error e := rfl

theorem runTasks_nil (kw : Kwargs) (pfx : String) (env : Env) (st : St) :
    runTasks kw pfx env st [] = Except.ok st := rfl

theorem runTasks_cons (kw : Kwargs) (pfx : String) (env : Env) (st : St)
    (t : Task) (ts : List Task) :
    runTasks kw pfx env st (t :: ts) =
      doTask kw pfx env st t >>= fun s => runTasks kw pfx env s ts := rfl

theorem str_append_empty (s : String) : s ++ "" = s := by
  apply String.ext
  simp [String.data_append]

theorem dispatch_textWrites (kw : Kwargs) (st : St) (t : Task) :
    (dispatch kw st t).2.2.textWrites = st.textWrites := by
  unfold dispatch
  split_ifs <;> first | rfl | (cases st.entropy <;> rfl)

theorem dispatch_figWrites (kw : Kwargs) (st : St) (t : Task) :
    (dispatch kw st t).2.2.figWrites = st.figWrites := by
  unfold dispatch
  split_ifs <;> first | rfl | (cases st.entropy <;> rfl)

theorem dispatch_warnings (kw : Kwargs) (st : St) (t : Task) :
    (dispatch kw st t).2.2.warnings = st.warnings := by
  unfold dispatch
  split_ifs <;> first | rfl | (cases st.entropy <;> rfl)

theorem dispatch_autoShow (kw : Kwargs) (st : St) (t : Task) :
    (dispatch kw st t).2.2.autoShow = st.autoShow := by
  unfold dispatch
  split_ifs <;> first | rfl | (cases st.entropy <;> rfl)

theorem dispatch_suffix (kw : Kwargs) (st : St) (t : Task) :
    (dispatch kw st t).2.1 = suffixOf t := by
  unfold dispatch suffixOf
  split_ifs <;> first | rfl | (cases st.entropy <;> rfl)

theorem dispatch_entropy (kw : Kwargs) (st : St) (t : Task) :
    (dispatch kw st t).2.2.entropy =
      (if needsEntropy t = true ∧ st.entropy = none
       then some (Entropy.shannon kw.ambiguity kw.omitgaps) else st.entropy) := by
  cases h : st.entropy <;>
    (unfold dispatch needsEntropy; split_ifs <;> simp_all)

theorem dispatch_entropyCalls (kw : Kwargs) (st : St) (t : Task) :
    (dispatch kw st t).2.2.entropyCalls =
      st.entropyCalls +
        (if needsEntropy t = true ∧ st.entropy = none then 1 else 0) := by
  cases h : st.entropy <;>
    (unfold dispatch needsEntropy; split_ifs <;> simp_all)

theorem resultSt_doTask_textWrites (kw : Kwargs) (pfx : String) (env : Env)
    (st : St) (t : Task) :
    (resultSt (doTask kw pfx env st t)).textWrites =
      st.textWrites ++
        [(pfx ++ suffixOf t ++ ".txt", (dispatch kw st t).1, kw.numformat)] := by
  unfold doTask
  dsimp only
  split_ifs <;>
    simp [resultSt, dispatch_textWrites, dispatch_suffix]

theorem resultSt_doTask_entropy (kw : Kwargs) (pfx : String) (env : Env)
    (st : St) (t : Task) :
    (resultSt (doTask kw pfx env st t)).entropy =
      (if needsEntropy t = true ∧ st.entropy = none
       then some (Entropy.shannon kw.ambiguity kw.omitgaps) else st.entropy) := by
  unfold doTask
  dsimp only
  split_ifs <;> simp_all [resultSt, dispatch_entropy]

theorem resultSt_doTask_entropyCalls (kw : Kwargs) (pfx : String) (env : Env)
    (st : St) (t : Task) :
    (resultSt (doTask kw pfx env st t)).entropyCalls =
      st.entropyCalls +
        (if needsEntropy t = true ∧ st.entropy = none then 1 else 0) := by
  unfold doTask
  dsimp only
  split_ifs <;> simp_all [resultSt, dispatch_entropyCalls]

theorem resultSt_doTask_autoShow (kw : Kwargs) (pfx : String) (env : Env)
    (st : St) (t : Task) :
    (resultSt (doTask kw pfx env st t)).autoShow =
      if kw.figcoevol = true ∧ env.backendAvailable = true then some false
      else st.autoShow := by
  unfold doTask
  dsimp only
  split_ifs <;> simp_all [resultSt, dispatch_autoShow]

theorem doTask_no_backend (kw : Kwargs) (pfx : String) (env : Env)
    (st : St) (t : Task) (hf : kw.figcoevol = true)
    (hb : env.backendAvailable = false) :
    ∃ st1, doTask kw pfx env st t = Except.ok st1 ∧
      st1.textWrites = st.textWrites ++
        [(pfx ++ suffixOf t ++ ".txt", (dispatch kw st t).1, kw.numformat)] ∧
      st1.warnings = st.warnings + 1 ∧
      st1.figWrites = st.figWrites := by
  unfold doTask
  rw [if_pos hf, if_neg (by simp [hb])]
  exact ⟨_, rfl, by simp [dispatch_textWrites, dispatch_suffix],
         by simp [dispatch_warnings], by simp [dispatch_figWrites]⟩

theorem doTask_no_fig (kw : Kwargs) (pfx : String) (env : Env)
    (st : St) (t : Task) (hf : kw.figcoevol = false) :
    doTask kw pfx env st t = Except.ok
      { (dispatch kw st t).2.2 with textWrites :=
          (dispatch kw st t).2.2.textWrites ++
            [(pfx ++ (dispatch kw st t).2.1 ++ ".txt", (dispatch kw st t).1,
              kw.numformat)] } := by
  unfold doTask
  rw [if_neg (by simp [hf])]

theorem doTask_render_fail (kw : Kwargs) (pfx : String) (env : Env)
    (st : St) (t : Task) (hf : kw.figcoevol = true)
    (hb : env.backendAvailable = true)
    (hr : env.renderOk (pfx ++ suffixOf t ++ "." ++ kw.figformat) = false) :
    ∃ st1, doTask kw pfx env st t = Except.error st1 ∧
      st1.textWrites = st.textWrites ++
        [(pfx ++ suffixOf t ++ ".txt", (dispatch kw st t).1, kw.numformat)] ∧
      st1.figWrites = st.figWrites ∧
      st1.autoShow = some false := by
  unfold doTask
  rw [if_pos hf, if_pos hb,
      if_neg (by rw [dispatch_suffix]; simp [hr])]
  exact ⟨_, rfl, by simp [dispatch_textWrites, dispatch_suffix],
         by simp [dispatch_figWrites], rfl⟩

theorem doTask_render_ok (kw : Kwargs) (pfx : String) (env : Env)
    (st : St) (t : Task) (hf : kw.figcoevol = true)
    (hb : env.backendAvailable = true)
    (hr : env.renderOk (pfx ++ suffixOf t ++ "." ++ kw.figformat) = true) :
    ∃ st1, doTask kw pfx env st t = Except.ok st1 := by
  unfold doTask
  rw [if_pos hf, if_pos hb,
      if_pos (by rw [dispatch_suffix]; simp [hr])]
  exact ⟨_, rfl⟩

theorem runTasks_ok_paths (kw : Kwargs) (pfx : String) (env : Env) :
    ∀ (ts : List Task) (st st1 : St),
      runTasks kw pfx env st ts = Except.ok st1 →
      st1.textWrites.map Prod.fst =
        st.textWrites.map Prod.fst ++
          ts.map (fun t => pfx ++ suffixOf t ++ ".txt") := by
  intro ts
  induction ts with
  | nil =>
    intro st st1 h
    rw [runTasks_nil] at h
    cases h
    simp
  | cons t ts ih =>
    intro st st1 h
    rw [runTasks_cons] at h
    cases hd : doTask kw pfx env st t with
    | error e =>
      rw [hd, error_bind] at h
      exact absurd h (by simp)
    | ok s2 =>
      rw [hd, ok_bind] at h
      have h3 : s2.textWrites = st.textWrites ++
          [(pfx ++ suffixOf t ++ ".txt", (dispatch kw st t).1, kw.numformat)] := by
        have h4 := resultSt_doTask_textWrites kw pfx env st t
        rw [hd] at h4
        exact h4
      rw [ih s2 st1 h, h3]
      simp

theorem runTasks_entropy_stable (kw : Kwargs) (pfx : String) (env : Env) :
    ∀ (ts : List Task) (st : St), st.entropy ≠ none →
      (resultSt (runTasks kw pfx env st ts)).entropy = st.entropy ∧
      (resultSt (runTasks kw pfx env st ts)).entropyCalls = st.entropyCalls := by
  intro ts
  induction ts with
  | nil =>
    intro st _
    rw [runTasks_nil]
    exact ⟨rfl, rfl⟩
  | cons t ts ih =>
    intro st hne
    rw [runTasks_cons]
    have he := resultSt_doTask_entropy kw pfx env st t
    have hc := resultSt_doTask_entropyCalls kw pfx env st t
    rw [if_neg (by simp [hne])] at he
    rw [if_neg (by simp [hne]), Nat.add_zero] at hc
    cases hd : doTask kw pfx env st t with
    | error e =>
      rw [hd] at he hc
      rw [error_bind]
      exact ⟨by rw [resultSt] at he ⊢; rw [he], by rw [resultSt] at hc ⊢; rw [hc]⟩
    | ok s2 =>
      rw [hd] at he hc
      rw [ok_bind]
      have h2 := ih s2 (by rw [resultSt] at he; rw [he]; exact hne)
      rw [resultSt] at he hc
      rw [h2.1, h2.2, he, hc]
      exact ⟨rfl, rfl⟩

theorem runTasks_calls_le_one (kw : Kwargs) (pfx : String) (env : Env) :
    ∀ (ts : List Task) (st : St), st.entropy = none → st.entropyCalls = 0 →
      (resultSt (runTasks kw pfx env st ts)).entropyCalls ≤ 1 := by
  intro ts
  induction ts with
  | nil =>
    intro st _ hc
    rw [runTasks_nil]
    simp [resultSt, hc]
  | cons t ts ih =>
    intro st hn hc
    rw [runTasks_cons]
    have he := resultSt_doTask_entropy kw pfx env st t
    have hcc := resultSt_doTask_entropyCalls kw pfx env st t
    cases hd : doTask kw pfx env st t with
    | error e =>
      rw [hd, resultSt] at he hcc
      rw [error_bind]
      rw [resultSt, hcc, hc]
      split <;> simp
    | ok s2 =>
      rw [hd, resultSt] at he hcc
      rw [ok_bind]
      by_cases hne : needsEntropy t = true
      · have h2 : s2.entropy ≠ none := by
          rw [he, if_pos ⟨hne, hn⟩]
          simp
        have h3 := (runTasks_entropy_stable kw pfx env ts s2 h2).2
        rw [h3, hcc, hc, if_pos ⟨hne, hn⟩]
      · have h2 : s2.entropy = none := by
          rw [he, if_neg (by simp [hne])]
          exact hn
        have h3 : s2.entropyCalls = 0 := by
          rw [hcc, hc, if_neg (by simp [hne])]
        exact ih s2 h2 h3

theorem runTasks_ok_calls_zero_iff (kw : Kwargs) (pfx : String) (env : Env) :
    ∀ (ts : List Task) (st st1 : St), st.entropy = none → st.entropyCalls = 0 →
      runTasks kw pfx env st ts = Except.ok st1 →
      (st1.entropyCalls = 0 ↔ ∀ t ∈ ts, needsEntropy t = false) := by
  intro ts
  induction ts with
  | nil =>
    intro st st1 _ hc h
    rw [runTasks_nil] at h
    cases h
    simp [hc]
  | cons t ts ih =>
    intro st st1 hn hc h
    rw [runTasks_cons] at h
    have he := resultSt_doTask_entropy kw pfx env st t
    have hcc := resultSt_doTask_entropyCalls kw pfx env st t
    cases hd : doTask kw pfx env st t with
    | error e =>
      rw [hd, error_bind] at h
      exact absurd h (by simp)
    | ok s2 =>
      rw [hd, resultSt] at he hcc
      rw [hd, ok_bind] at h
      by_cases hne : needsEntropy t = true
      · have h2 : s2.entropy ≠ none := by
          rw [he, if_pos ⟨hne, hn⟩]
          simp
        have h3 := (runTasks_entropy_stable kw pfx env ts s2 h2).2
        rw [h] at h3
        rw [resultSt] at h3
        have h4 : st1.entropyCalls = 1 := by
          rw [h3, hcc, hc, if_pos ⟨hne, hn⟩]
        constructor
        · intro h5
          rw [h4] at h5
          exact absurd h5 (by simp)
        · intro h5
          exact absurd (h5 t (by simp)) (by simp [hne])
      · have h2 : s2.entropy = none := by
          rw [he, if_neg (by simp [hne])]
          exact hn
        have h3 : s2.entropyCalls = 0 := by
          rw [hcc, hc, if_neg (by simp [hne])]
        rw [ih s2 st1 h2 h3 h]
        simp only [Bool.not_eq_true] at hne
        simp [hne]

theorem runTasks_no_backend (kw : Kwargs) (pfx : String) (env : Env)
    (hf : kw.figcoevol = true) (hb : env.backendAvailable = false) :
    ∀ (ts : List Task) (st : St), ∃ st1,
      runTasks kw pfx env st ts = Except.ok st1 ∧
      st1.textWrites.map Prod.fst =
        st.textWrites.map Prod.fst ++
          ts.map (fun t => pfx ++ suffixOf t ++ ".txt") ∧
      st1.warnings = st.warnings + ts.length ∧
      st1.figWrites = st.figWrites := by
  intro ts
  induction ts with
  | nil =>
    intro st
    exact ⟨st, runTasks_nil kw pfx env st, by simp, rfl, rfl⟩
  | cons t ts ih =>
    intro st
    obtain ⟨s2, hd, hw, hwar, hfig⟩ := doTask_no_backend kw pfx env st t hf hb
    obtain ⟨st1, h1, h2, h3, h4⟩ := ih s2
    refine ⟨st1, ?_, ?_, ?_, ?_⟩
    · rw [runTasks_cons, hd, ok_bind]
      exact h1
    · rw [h2, hw]
      simp
    · rw [h3, hwar]
      simp [Nat.add_assoc, Nat.add_comm 1 ts.length]
    · rw [h4, hfig]

theorem runTasks_autoShow (kw : Kwargs) (pfx : String) (env : Env) :
    ∀ (ts : List Task) (st : St), ts ≠ [] →
      (resultSt (runTasks kw pfx env st ts)).autoShow =
        if kw.figcoevol = true ∧ env.backendAvailable = true then some false
        else st.autoShow := by
  intro ts
  induction ts with
  | nil => intro st h; exact absurd rfl h
  | cons t ts ih =>
    intro st _
    rw [runTasks_cons]
    have ha := resultSt_doTask_autoShow kw pfx env st t
    cases hd : doTask kw pfx env st t with
    | error e =>
      rw [hd, resultSt] at ha
      rw [error_bind, resultSt, ha]
    | ok s2 =>
      rw [hd, resultSt] at ha
      rw [ok_bind]
      cases ts with
      | nil =>
        rw [runTasks_nil, resultSt, ha]
      | cons u us =>
        rw [ih s2 (by simp), ha]
        by_cases hc : kw.figcoevol = true ∧ env.backendAvailable = true <;>
          simp [hc]


deriving instance DecidableEq for Except

/-- The `planTasks` planner ignores every occurrence of the literal string
`'join'` in the normalization list (line 138: `if which == 'join': continue`),
and removing those occurrences does not disturb the `'joint'` special case. -/
theorem planTasks_filter_join (n c : Option (List String)) :
    planTasks (n.map (List.filter (fun w => w ≠ "join"))) c =
      planTasks n c := by
  cases n with
  | none => rfl
  | some ns =>
    show planTasks (some (ns.filter (fun w => w ≠ "join"))) c = planTasks (some ns) c
    have h1 : ("joint" ∈ ns.filter (fun w => w ≠ "join")) ↔ "joint" ∈ ns := by
      constructor
      · intro h
        exact (List.mem_filter.mp h).1
      · intro h
        exact List.mem_filter.mpr ⟨h, by decide⟩
    have h2 : (ns.filter (fun w => w ≠ "join")).filter (fun w => w ≠ "join") =
        ns.filter (fun w => w ≠ "join") := by
      rw [List.filter_filter]
      simp [Bool.and_self]
    simp only [planTasks, normTasks]
    rw [h2]
    by_cases hj : "joint" ∈ ns
    · rw [if_pos hj, if_pos (h1.mpr hj)]
    · rw [if_neg hj, if_neg (fun hh => hj (h1.mp hh))]

/-- Environment with no plotting backend. -/
def env0 : Env := { backendAvailable := false, renderOk := fun _ => false }

/-- Environment with a working plotting backend that renders every figure. -/
def envT : Env := { backendAvailable := true, renderOk := fun _ => true }

/-- Environment with a plotting backend whose render/save step always
fails. -/
def envFail : Env := { backendAvailable := true, renderOk := fun _ => false }

/-- The option set of the worked example of the spec:
`normalization = ["joint", "minent"]`, `correction = ["apc"]`. -/
def kwC2 : Kwargs :=
  { pfx? := some "p", normalization := some ["joint", "minent"],
    correction := some ["apc"] }

/-- Options with neither normalizations nor corrections. -/
def kwC3 : Kwargs := { pfx? := some "p" }

/-- Options with a single non-joint normalization and figure output on. -/
def kwC4 : Kwargs :=
  { pfx? := some "p", normalization := some ["minent"], figcoevol := true }

/-- Options with two non-joint normalizations. -/
def kwC5 : Kwargs :=
  { pfx? := some "p", normalization := some ["minent", "maxent"] }

/-- Options with one normalization and figure output on. -/
def kwC7 : Kwargs :=
  { pfx? := some "p", normalization := some ["minent"], figcoevol := true }

/-- Options with figure output on and no extra variants. -/
def kwC10 : Kwargs := { pfx? := some "p", figcoevol := true }

/-- Final state of the run with options `kwC3` and no backend. -/
def stC3 : St :=
  { entropy := none, entropyCalls := 0,
    textWrites := [("p.txt", Matrix.mutinfo true true, "%12g"),
                   ("p.txt", Matrix.mutinfo true true, "%12g")],
    figWrites := [], warnings := 0, autoShow := none }

/-- State at which the run with options `kwC4` under `envFail` aborts. -/
def stC4 : St :=
  { entropy := none, entropyCalls := 0,
    textWrites := [("p.txt", Matrix.mutinfo true true, "%12g"),
                   ("p.txt", Matrix.mutinfo true true, "%12g")],
    figWrites := [], warnings := 0, autoShow := some false }

/-- Final state of the run with options `kwC5` and no figure output. -/
def stC5 : St :=
  { entropy := some (Entropy.shannon true true), entropyCalls := 1,
    textWrites :=
      [("p.txt", Matrix.mutinfo true true, "%12g"),
       ("p.txt", Matrix.mutinfo true true, "%12g"),
       ("p_norm_minent.txt",
        Matrix.normed (Matrix.mutinfo true true) (Entropy.shannon true true)
          "minent", "%12g"),
       ("p_norm_maxent.txt",
        Matrix.normed (Matrix.mutinfo true true) (Entropy.shannon true true)
          "maxent", "%12g")],
    figWrites := [], warnings := 0, autoShow := none }

/-- C1: when the normalization list contains `"joint"`, the planned task
list is the base task followed immediately by a `(norm, joint)` task (hence
before any other norm task, whatever the input order), followed by one
`(norm, name)` task per input name in order, `"joint"` included again, so
`(norm, joint)` occurs at least twice. -/
theorem c1_joint_first_and_duplicated (ns : List String)
    (c : Option (List String)) (h : "joint" ∈ ns) :
    planTasks (some ns) c =
      (none, none) :: (some "norm", some "joint") ::
        ((ns.filter (fun w => w ≠ "join")).map
            (fun w => ((some "norm", some w) : Task)) ++ corrTasks c) ∧
    2 ≤ (planTasks (some ns) c).count
        ((some "norm", some "joint") : Task) := by
  have h1 : planTasks (some ns) c =
      (none, none) :: (some "norm", some "joint") ::
        ((ns.filter (fun w => w ≠ "join")).map
            (fun w => ((some "norm", some w) : Task)) ++ corrTasks c) := by
    simp only [planTasks, normTasks]
    rw [if_pos h]
    simp
  refine ⟨h1, ?_⟩
  rw [h1]
  simp only [List.count_cons, List.count_append]
  simp
  have hpos : 0 < List.count ((some "norm", some "joint") : Task)
      ((ns.filter (fun w => !decide (w = "join"))).map
        (fun w => ((some "norm", some w) : Task))) := by
    refine List.count_pos_iff.mpr ?_
    exact List.mem_map.mpr ⟨"joint", List.mem_filter.mpr ⟨h, by decide⟩, rfl⟩
  omega

/-- C1 witness at `ns = ["joint"]`, `c = none`. -/
theorem c1_witness :
    "joint" ∈ (["joint"] : List String) ∧
    (planTasks (some ["joint"]) none =
      (none, none) :: (some "norm", some "joint") ::
        (((["joint"] : List String).filter (fun w => w ≠ "join")).map
            (fun w => ((some "norm", some w) : Task)) ++ corrTasks none) ∧
     2 ≤ (planTasks (some ["joint"]) none).count
        ((some "norm", some "joint") : Task)) :=
  ⟨by decide, c1_joint_first_and_duplicated ["joint"] none (by decide)⟩

/-- C2 counterexample: with `normalization = ["joint", "minent"]` and
`correction = ["apc"]` the planned task list is not the four-element list
claimed by the spec example (the `joint` task is emitted twice). -/
theorem c2_task_order_counterexample :
    planTasks kwC2.normalization kwC2.correction ≠
      [(none, none), (some "norm", some "joint"),
       (some "norm", some "minent"), (some "corr", some "apc")] := by
  decide

/-- C2 amended: the planned task order for the example is base,
`(norm, joint)`, `(norm, joint)`, `(norm, minent)`, `(corr, apc)`; the run
performs six text writes (the pre-loop base write plus one per task), with
`p.txt` and `p_norm_joint.txt` each written twice, covering exactly four
distinct text paths with suffixes `""`, `"_norm_joint"`, `"_norm_minent"`
and `"_corr_apc"`. -/
theorem c2_amended_tasks_and_writes :
    planTasks kwC2.normalization kwC2.correction =
      [(none, none), (some "norm", some "joint"), (some "norm", some "joint"),
       (some "norm", some "minent"), (some "corr", some "apc")] ∧
    (resultSt (evol_coevol "m" kwC2 env0 none)).textWrites.map Prod.fst =
      ["p.txt", "p.txt", "p_norm_joint.txt", "p_norm_joint.txt",
       "p_norm_minent.txt", "p_corr_apc.txt"] ∧
    ((resultSt (evol_coevol "m" kwC2 env0 none)).textWrites.map
        Prod.fst).dedup =
      ["p.txt", "p_norm_joint.txt", "p_norm_minent.txt", "p_corr_apc.txt"] := by
  decide

/-- C3 counterexample: in a run with no normalizations and no corrections,
the base matrix path `p.txt` receives two writes, not exactly one (the
pre-loop write at lines 128-129 plus the base task write at lines 164-165). -/
theorem c3_base_written_twice_counterexample :
    ((resultSt (evol_coevol "m" kwC3 env0 none)).textWrites.map
        Prod.fst).count "p.txt" = 2 ∧
    ¬ (((resultSt (evol_coevol "m" kwC3 env0 none)).textWrites.map
        Prod.fst).count "p.txt" = 1) := by
  decide

/-- C3 amended: a completed run performs exactly one text write per planned
task, at `prefix + suffix + ".txt"`, plus one additional write of the base
matrix to `prefix + ".txt"` before the task loop; hence the base path is
written exactly twice per run, every other path once per task naming it. -/
theorem c3_one_write_per_task_plus_initial (msa : String) (kw : Kwargs)
    (env : Env) (s0 : Option Bool) (st : St)
    (h : evol_coevol msa kw env s0 = Except.ok st) :
    st.textWrites.map Prod.fst =
      (pfxOf msa kw ++ ".txt") ::
        (planTasks kw.normalization kw.correction).map
          (fun t => pfxOf msa kw ++ suffixOf t ++ ".txt") := by
  unfold evol_coevol at h
  have h1 := runTasks_ok_paths kw (pfxOf msa kw) env
      (planTasks kw.normalization kw.correction) (initSt msa kw s0) st h
  rw [h1]
  simp [initSt]

/-- C3 witness: the run with options `kwC3` and no backend. -/
theorem c3_witness :
    evol_coevol "m" kwC3 env0 none = Except.ok stC3 ∧
    stC3.textWrites.map Prod.fst =
      (pfxOf "m" kwC3 ++ ".txt") ::
        (planTasks kwC3.normalization kwC3.correction).map
          (fun t => pfxOf "m" kwC3 ++ suffixOf t ++ ".txt") :=
  ⟨by decide, c3_one_write_per_task_plus_initial "m" kwC3 env0 none stC3
      (by decide)⟩


/-- C4 counterexample: with figure output enabled, an available backend and
a failing render/save step, the run with one further normalization task
aborts with an error after the base task; the remaining task's text
artifact `p_norm_minent.txt` is never written, so the failure is fatal
rather than reported-and-skipped. -/
theorem c4_render_failure_aborts_counterexample :
    evol_coevol "m" kwC4 envFail none = Except.error stC4 ∧
    "p_norm_minent.txt" ∉ stC4.textWrites.map Prod.fst := by
  decide

/-- C4 amended: only a missing plotting backend (`ImportError`) is handled
non-fatally; a failure while rendering or saving a figure is not caught,
and when it hits the first (base) task the run aborts with only the two
base-matrix writes performed and no figure written, processing no further
task. -/
theorem c4_render_failure_fatal (msa : String) (kw : Kwargs) (env : Env)
    (s0 : Option Bool) (hf : kw.figcoevol = true)
    (hb : env.backendAvailable = true)
    (hr : env.renderOk (pfxOf msa kw ++ "." ++ kw.figformat) = false) :
    ∃ st, evol_coevol msa kw env s0 = Except.error st ∧
      st.textWrites.map Prod.fst =
        [pfxOf msa kw ++ ".txt", pfxOf msa kw ++ ".txt"] ∧
      st.figWrites = [] := by
  have hr2 : env.renderOk
      (pfxOf msa kw ++ suffixOf ((none, none) : Task) ++ "." ++ kw.figformat) =
      false := by
    show env.renderOk (pfxOf msa kw ++ "" ++ "." ++ kw.figformat) = false
    rw [str_append_empty]
    exact hr
  obtain ⟨st1, hd, hw, hfig, _⟩ := doTask_render_fail kw (pfxOf msa kw) env
      (initSt msa kw s0) (none, none) hf hb hr2
  refine ⟨st1, ?_, ?_, ?_⟩
  · show runTasks kw (pfxOf msa kw) env (initSt msa kw s0)
        (planTasks kw.normalization kw.correction) = Except.error st1
    unfold planTasks
    rw [runTasks_cons, hd, error_bind]
  · rw [hw]
    show ((initSt msa kw s0).textWrites ++
        [(pfxOf msa kw ++ "" ++ ".txt", (dispatch kw (initSt msa kw s0)
            ((none, none) : Task)).1, kw.numformat)]).map Prod.fst = _
    rw [str_append_empty]
    simp [initSt]
  · rw [hfig]
    rfl

/-- C4 witness: the run with options `kwC4` under `envFail`. -/
theorem c4_witness :
    ∃ st, evol_coevol "m" kwC4 envFail none = Except.error st ∧
      st.textWrites.map Prod.fst =
        [pfxOf "m" kwC4 ++ ".txt", pfxOf "m" kwC4 ++ ".txt"] ∧
      st.figWrites = [] :=
  c4_render_failure_fatal "m" kwC4 envFail none rfl rfl rfl

/-- C5: in every completed run `calcShannonEntropy` is called at most once,
and it is called zero times exactly when no planned task takes the
entropy-using branch (a `norm` task whose variant is not `"joint"`); in
particular it is never called when the only normalization tasks are
`"joint"` ones or there are none. -/
theorem c5_entropy_at_most_once (msa : String) (kw : Kwargs) (env : Env)
    (s0 : Option Bool) (st : St)
    (h : evol_coevol msa kw env s0 = Except.ok st) :
    st.entropyCalls ≤ 1 ∧
    (st.entropyCalls = 0 ↔
      ∀ t ∈ planTasks kw.normalization kw.correction,
        needsEntropy t = false) := by
  unfold evol_coevol at h
  constructor
  · have h1 := runTasks_calls_le_one kw (pfxOf msa kw) env
        (planTasks kw.normalization kw.correction) (initSt msa kw s0) rfl rfl
    rw [h] at h1
    exact h1
  · exact runTasks_ok_calls_zero_iff kw (pfxOf msa kw) env
      (planTasks kw.normalization kw.correction) (initSt msa kw s0) st rfl rfl h

/-- C5 witness: the run with two non-joint normalizations calls the entropy
collaborator once. -/
theorem c5_witness :
    evol_coevol "m" kwC5 env0 none = Except.ok stC5 ∧
    (stC5.entropyCalls ≤ 1 ∧
     (stC5.entropyCalls = 0 ↔
       ∀ t ∈ planTasks kwC5.normalization kwC5.correction,
         needsEntropy t = false)) :=
  ⟨by decide, c5_entropy_at_most_once "m" kwC5 env0 none stC5 (by decide)⟩

/-- C6: every occurrence of the literal string `"join"` in the
normalization input is skipped by the planner: filtering those occurrences
out changes neither the planned tasks nor anything else about the run, and
a normalization list consisting only of `"join"` plans the base task alone
(unlike `"joint"`, which is special-cased). -/
theorem c6_join_skipped :
    (∀ (msa : String) (kw : Kwargs) (env : Env) (s0 : Option Bool),
      evol_coevol msa
        { kw with normalization :=
            kw.normalization.map (List.filter (fun w => w ≠ "join")) }
        env s0 =
      evol_coevol msa kw env s0) ∧
    planTasks (some ["join"]) none = [(none, none)] := by
  constructor
  · intro msa kw env s0
    have hplan := planTasks_filter_join kw.normalization kw.correction
    calc evol_coevol msa
          { kw with normalization :=
              kw.normalization.map (List.filter (fun w => w ≠ "join")) }
          env s0
        = runTasks kw (pfxOf msa kw) env (initSt msa kw s0)
            (planTasks
              (kw.normalization.map (List.filter (fun w => w ≠ "join")))
              kw.correction) := rfl
      _ = runTasks kw (pfxOf msa kw) env (initSt msa kw s0)
            (planTasks kw.normalization kw.correction) := by rw [hplan]
      _ = evol_coevol msa kw env s0 := rfl
  · decide

/-- C7: when figure output is requested but the plotting backend is
unavailable, the run completes successfully, every task's text artifact is
still written, one warning is emitted per task (so at least one), and no
figure is written. -/
theorem c7_no_backend_degrades (msa : String) (kw : Kwargs) (env : Env)
    (s0 : Option Bool) (hf : kw.figcoevol = true)
    (hb : env.backendAvailable = false) :
    ∃ st, evol_coevol msa kw env s0 = Except.ok st ∧
      st.textWrites.map Prod.fst =
        (pfxOf msa kw ++ ".txt") ::
          (planTasks kw.normalization kw.correction).map
            (fun t => pfxOf msa kw ++ suffixOf t ++ ".txt") ∧
      st.warnings = (planTasks kw.normalization kw.correction).length ∧
      1 ≤ st.warnings ∧
      st.figWrites = [] := by
  obtain ⟨st1, h1, h2, h3, h4⟩ := runTasks_no_backend kw (pfxOf msa kw) env
      hf hb (planTasks kw.normalization kw.correction) (initSt msa kw s0)
  refine ⟨st1, h1, ?_, ?_, ?_, ?_⟩
  · rw [h2]
    simp [initSt]
  · rw [h3]
    simp [initSt]
  · rw [h3]
    simp [initSt, planTasks]
  · rw [h4]
    rfl

/-- C7 witness: the run with options `kwC7` and no backend. -/
theorem c7_witness :
    ∃ st, evol_coevol "m" kwC7 env0 none = Except.ok st ∧
      st.textWrites.map Prod.fst =
        (pfxOf "m" kwC7 ++ ".txt") ::
          (planTasks kwC7.normalization kwC7.correction).map
            (fun t => pfxOf "m" kwC7 ++ suffixOf t ++ ".txt") ∧
      st.warnings = (planTasks kwC7.normalization kwC7.correction).length ∧
      1 ≤ st.warnings ∧
      st.figWrites = [] :=
  c7_no_backend_degrades "m" kwC7 env0 none rfl rfl

/-- C8: two runs that differ only in the `cmin` and `cmax` options have
identical results in every respect (all text and figure artifacts, and the
rest of the observable state): the function body never reads these options
(the lines that would are commented out). -/
theorem c8_cmin_cmax_inert (msa : String) (kw : Kwargs) (env : Env)
    (s0 : Option Bool) (a b : Option Int) :
    evol_coevol msa { kw with cmin := a, cmax := b } env s0 =
      evol_coevol msa kw env s0 := rfl

/-- The claim's reading of the default prefix rule: strip a trailing `.gz`
extension first (when the extension, as computed by path splitting, is
`.gz` case-insensitively), then strip the remaining extension, then append
`_mutinfo`. -/
def stripTrailingGz (s : String) : String :=
  if strLower ((splitext s).2) = ".gz" then (splitext s).1 else s

/-- The claim's reading of the whole default-prefix derivation. -/
def specDefaultPfx (s : String) : String :=
  (splitext (stripTrailingGz s)).1 ++ "_mutinfo"

/-- C9: when no prefix option is given, the prefix used by the run is the
input filename with a trailing `.gz` stripped first, then the remaining
extension stripped, then `_mutinfo` appended; both `piwi_refined.slx` and
`piwi_refined.slx.gz` yield `piwi_refined_mutinfo`. -/
theorem c9_default_pfx :
    (∀ (msa : String) (kw : Kwargs), kw.pfx? = none →
      pfxOf msa kw = specDefaultPfx msa) ∧
    pfxOf "piwi_refined.slx" { pfx? := none } = "piwi_refined_mutinfo" ∧
    pfxOf "piwi_refined.slx.gz" { pfx? := none } = "piwi_refined_mutinfo" := by
  refine ⟨?_, by decide, by decide⟩
  intro msa kw h
  unfold pfxOf
  rw [h]
  show defaultPfx msa = specDefaultPfx msa
  unfold defaultPfx specDefaultPfx stripTrailingGz
  by_cases hc : strLower ((splitext msa).2) = ".gz"
  · rw [if_pos hc, if_pos hc]
  · rw [if_neg hc, if_neg hc]

/-- C9 witness at `msa = "a.slx.gz"`. -/
theorem c9_witness :
    (({ pfx? := none } : Kwargs)).pfx? = none ∧
    pfxOf "a.slx.gz" { pfx? := none } = specDefaultPfx "a.slx.gz" :=
  ⟨rfl, c9_default_pfx.1 "a.slx.gz" { pfx? := none } rfl⟩

/-- C10 counterexample: a run with figure output enabled and a working
backend sets the shared setting `prody.SETTINGS['auto_show']` to `False`,
so the settings are not left unchanged (here they started as `True`). -/
theorem c10_settings_mutated_counterexample :
    (resultSt (evol_coevol "m" kwC10 envT (some true))).autoShow =
        some false ∧
    (some false : Option Bool) ≠ some true := by
  decide

/-- C10 amended: besides the entropy cache, the only shared state the task
loop mutates is the global `auto_show` setting, and only when figure output
is enabled and the backend is available, in which case it is `False` at the
end of the run; otherwise the setting keeps its initial value. -/
theorem c10_only_entropy_and_autoshow (msa : String) (kw : Kwargs)
    (env : Env) (s0 : Option Bool) :
    (resultSt (evol_coevol msa kw env s0)).autoShow =
      if kw.figcoevol = true ∧ env.backendAvailable = true then some false
      else s0 := by
  have h := runTasks_autoShow kw (pfxOf msa kw) env
      (planTasks kw.normalization kw.correction) (initSt msa kw s0)
      (by simp [planTasks])
  exact h

end EvolCoevol
